import Mathlib

/-!
Verification of the toji-launcher installation orchestrator.

This file gives a shallow embedding, in Lean, of the parts of the
toji-launcher sources that the verified properties are about:

* `src/main/install-script-builder.ts` — the `InstallScriptBuilder` class,
  embedded as `buildScript`, which produces the generated shell script as a
  list of lines (the TypeScript code produces the same lines and joins them
  with a newline).
* a small operational model of how `bash` executes the generated script
  under `set -e` (`runLines`), used to reason about the temporary sudo
  sub-script's lifetime.
* `src/main/system-setup.ts` — `SystemSetup.checkAllRequirements`,
  `SystemSetup.createInstallationPlan`, `SystemSetup.executeInstallationPlan`.
* `src/main/platform/linux-platform-service.ts` —
  `LinuxPlatformService.installAllDependencies`.
* `src/main/bot-downloader.ts` — `BotDownloader.downloadBot` with its
  download/extract/verify pipeline and its progress events.

External effects (child processes, the filesystem, the network) are made
explicit as oracle records (`InstallEnv`, `CheckEnv`, `BotEnv`) carrying the
outcome of each external call; a rejected promise is `Except.error` with the
error message.  JavaScript numbers that can take half-integer values
(`progress * 0.5`) are modelled as rationals.
-/

namespace Toji

/-- `InstallCommand` from `install-script-builder.ts`. -/
structure InstallCommand where
  command : String
  description : String
  requiresSudo : Bool
deriving Repr, DecidableEq

/-- The fixed header lines pushed by `buildScript` (install-script-builder.ts
lines 29-40); `now` stands for `new Date().toISOString()`. -/
def headerLines (now : String) : List String :=
  ["#!/bin/bash",
   "set -e",
   "",
   "# Toji Launcher Installation Script",
   "# Generated at " ++ now,
   "",
   "progress() \x7b",
   "  echo \"PROGRESS:$1:$2\"",
   "\x7d",
   ""]

/-- Lines emitted for the non-privileged commands by
`regularCommands.forEach((cmd, index) => ...)` (lines 49-54); `i` is the
running index. -/
def regularLines : Nat → List InstallCommand → List String
  | _, [] => []
  | i, c :: rest =>
    ("progress " ++ toString (i * 10) ++ " \"" ++ c.description ++ "\"")
      :: ("echo \">>> " ++ c.description ++ "\"")
      :: c.command
      :: ""
      :: regularLines (i + 1) rest

/-- The non-privileged block (lines 47-55). -/
def regularBlock (cmds : List InstallCommand) : List String :=
  if cmds.length > 0 then
    "# Commands that do not require sudo" :: regularLines 0 cmds
  else []

/-- The `echo "  - <description>"` preview lines (lines 61-63). -/
def sudoEchoLines (cmds : List InstallCommand) : List String :=
  cmds.map (fun c => "echo \"  - " ++ c.description ++ "\"")

/-- Body of the heredoc written into the temporary sudo sub-script
(`sudoCommands.forEach((cmd, index) => ...)`, lines 72-78). -/
def sudoScriptLines : Nat → List InstallCommand → List String
  | _, [] => []
  | i, c :: rest =>
    ("echo \"PROGRESS:" ++ toString (50 + i * 10) ++ ":" ++ c.description ++ "\"")
      :: ("echo \">>> " ++ c.description ++ "\"")
      :: c.command
      :: ""
      :: sudoScriptLines (i + 1) rest

/-- The `mktemp` line creating the temporary sudo sub-script (line 68). -/
def mktempLine : String := "SUDO_SCRIPT=$(mktemp /tmp/toji-sudo-XXXXXX.sh)"

/-- The line opening the heredoc that fills the sub-script (line 69). -/
def catLine : String := "cat > \"$SUDO_SCRIPT\" << \x27EOF\x27"

/-- The single elevation invocation of the sub-script (line 82). -/
def pkexecLine : String := "pkexec bash \"$SUDO_SCRIPT\""

/-- The cleanup line removing the sub-script (line 83). -/
def rmLine : String := "rm -f \"$SUDO_SCRIPT\""

/-- The privileged block (lines 58-84): preview echoes, creation of the
temporary sudo sub-script via a heredoc, one `pkexec` invocation of it, and
its removal. -/
def sudoBlock (cmds : List InstallCommand) : List String :=
  if cmds.length > 0 then
    "# Commands that require sudo"
      :: "echo \"The following operations require administrator privileges:\""
      :: (sudoEchoLines cmds
          ++ [""]
          ++ ["# Create temporary sudo script", mktempLine, catLine,
              "#!/bin/bash", "set -e"]
          ++ sudoScriptLines 0 cmds
          ++ ["EOF", "", "# Run with pkexec for GUI password prompt",
              pkexecLine, rmLine])
  else []

/-- Trailer lines (lines 86-88).  The last line reproduces the bytes found in
the source file. -/
def trailerLines : List String :=
  ["",
   "progress 100 \"Installation complete\"",
   "echo \"âœ“ All installations completed successfully\""]

/-- `InstallScriptBuilder.buildScript` (lines 25-91), as the list of script
lines; the TypeScript method returns `lines.join('\n')`.  `now` stands for
the timestamp interpolated into the header comment. -/
def buildScript (now : String) (commands : List InstallCommand) : List String :=
  headerLines now
    ++ regularBlock (commands.filter (fun cmd => !cmd.requiresSudo))
    ++ sudoBlock (commands.filter (fun cmd => cmd.requiresSudo))
    ++ trailerLines

/-- A script line invokes the elevation mechanism iff it starts with
`pkexec` followed by a space (the builder only ever generates
`pkexec bash "$SUDO_SCRIPT"`). -/
def isPkexecInvocation (l : String) : Bool :=
  "pkexec ".data.isPrefixOf l.data

-- Lines built from a fixed literal whose first characters already differ
-- from `pkexec ` are never elevation invocations, whatever the interpolated
-- part is; these reduce definitionally.

theorem isPkexec_generated (now : String) :
    isPkexecInvocation ("# Generated at " ++ now) = false := rfl

theorem isPkexec_progressLine (n : Nat) (d : String) :
    isPkexecInvocation ("progress " ++ toString n ++ " \"" ++ d ++ "\"") = false := rfl

theorem isPkexec_echoStep (d : String) :
    isPkexecInvocation ("echo \">>> " ++ d ++ "\"") = false := rfl

theorem isPkexec_echoDash (d : String) :
    isPkexecInvocation ("echo \"  - " ++ d ++ "\"") = false := rfl

theorem isPkexec_echoProgress (n : Nat) (d : String) :
    isPkexecInvocation ("echo \"PROGRESS:" ++ toString n ++ ":" ++ d ++ "\"") = false := rfl

theorem countP_headerLines (now : String) :
    (headerLines now).countP isPkexecInvocation = 0 := rfl

theorem countP_trailerLines :
    trailerLines.countP isPkexecInvocation = 0 := rfl

theorem countP_regularLines (i : Nat) (cmds : List InstallCommand)
    (h : ∀ c ∈ cmds, isPkexecInvocation c.command = false) :
    (regularLines i cmds).countP isPkexecInvocation = 0 := by
  induction cmds generalizing i with
  | nil => rfl
  | cons c rest ih =>
    have hc : isPkexecInvocation c.command = false := h c (List.mem_cons_self _ _)
    have hrest : ∀ x ∈ rest, isPkexecInvocation x.command = false :=
      fun x hx => h x (List.mem_cons_of_mem _ hx)
    simp [regularLines, List.countP_cons, hc, ih _ hrest,
      isPkexec_progressLine, isPkexec_echoStep]
    rfl

theorem countP_sudoScriptLines (i : Nat) (cmds : List InstallCommand)
    (h : ∀ c ∈ cmds, isPkexecInvocation c.command = false) :
    (sudoScriptLines i cmds).countP isPkexecInvocation = 0 := by
  induction cmds generalizing i with
  | nil => rfl
  | cons c rest ih =>
    have hc : isPkexecInvocation c.command = false := h c (List.mem_cons_self _ _)
    have hrest : ∀ x ∈ rest, isPkexecInvocation x.command = false :=
      fun x hx => h x (List.mem_cons_of_mem _ hx)
    simp [sudoScriptLines, List.countP_cons, hc, ih _ hrest,
      isPkexec_echoProgress, isPkexec_echoStep]
    rfl

theorem countP_sudoEchoLines (cmds : List InstallCommand) :
    (sudoEchoLines cmds).countP isPkexecInvocation = 0 := by
  rw [List.countP_eq_zero]
  intro a ha
  rcases List.mem_map.mp ha with ⟨c, _, rfl⟩
  simp [isPkexec_echoDash]

theorem countP_sudoBlock (cmds : List InstallCommand)
    (h : ∀ c ∈ cmds, isPkexecInvocation c.command = false) :
    (sudoBlock cmds).countP isPkexecInvocation = if cmds.length > 0 then 1 else 0 := by
  by_cases hlen : cmds.length > 0
  · simp only [sudoBlock, if_pos hlen]
    simp [List.countP_cons, List.countP_append, countP_sudoEchoLines,
      countP_sudoScriptLines 0 cmds h]
    rfl
  · simp [sudoBlock, hlen]

theorem countP_regularBlock (cmds : List InstallCommand)
    (h : ∀ c ∈ cmds, isPkexecInvocation c.command = false) :
    (regularBlock cmds).countP isPkexecInvocation = 0 := by
  by_cases hlen : cmds.length > 0
  · simp only [regularBlock, if_pos hlen]
    simp [List.countP_cons, countP_regularLines 0 cmds h]
    rfl
  · simp [regularBlock, hlen]

theorem command_mem_sudoScriptLines (cmds : List InstallCommand) (i : Nat) :
    ∀ c ∈ cmds, c.command ∈ sudoScriptLines i cmds := by
  induction cmds generalizing i with
  | nil => intro c hc; cases hc
  | cons c rest ih =>
    intro x hx
    rcases List.mem_cons.mp hx with rfl | hx
    · simp [sudoScriptLines]
    · simp only [sudoScriptLines, List.mem_cons]
      exact Or.inr (Or.inr (Or.inr (Or.inr (ih (i + 1) x hx))))

/-- Commands added by `LinuxPlatformService.installAllDependencies` when both
dependencies are missing (linux-platform-service.ts lines 179-192). -/
def installerCmds : List InstallCommand :=
  [⟨"apt-get update", "Updating package list", true⟩,
   ⟨"apt-get install -y nodejs npm", "Installing Node.js and npm", true⟩,
   ⟨"npm install -g @anthropic-ai/claude-code", "Installing Claude Code CLI", true⟩]

/-- Claim C1: for every sequence of added commands, the script text returned
by `buildScript()` invokes the elevation mechanism exactly `min(N,1)` times,
where `N` is the number of commands added with `requiresSudo = true`; for
`N ≥ 1` the single invocation runs one sub-script whose body contains all
`N` privileged commands.  (The hypothesis excludes command strings that are
themselves a `pkexec` invocation, which would confuse the count.) -/
theorem buildScript_single_elevation (now : String) (cmds : List InstallCommand)
    (h : ∀ c ∈ cmds, isPkexecInvocation c.command = false) :
    (buildScript now cmds).countP isPkexecInvocation
        = min (cmds.countP (fun c => c.requiresSudo)) 1
      ∧ ∀ c ∈ cmds, c.requiresSudo = true →
          c.command ∈ sudoScriptLines 0 (cmds.filter (fun c => c.requiresSudo)) := by
  constructor
  · have hreg : ∀ c ∈ cmds.filter (fun cmd => !cmd.requiresSudo),
        isPkexecInvocation c.command = false :=
      fun c hc => h c (List.mem_of_mem_filter hc)
    have hsud : ∀ c ∈ cmds.filter (fun cmd => cmd.requiresSudo),
        isPkexecInvocation c.command = false :=
      fun c hc => h c (List.mem_of_mem_filter hc)
    rw [buildScript, List.countP_append, List.countP_append, List.countP_append,
      countP_headerLines, countP_trailerLines,
      countP_regularBlock _ hreg, countP_sudoBlock _ hsud]
    rw [List.countP_eq_length_filter]
    rcases Nat.eq_zero_or_pos (cmds.filter (fun c => c.requiresSudo)).length with h0 | h0
    · simp [h0, Nat.not_lt_of_le (Nat.le_of_eq h0)]
    · simp only [if_pos h0]
      omega
  · intro c hc hs
    exact command_mem_sudoScriptLines _ 0 c (List.mem_filter.mpr ⟨hc, by simp [hs]⟩)

/-- Witness for C1 at the three privileged commands the executor actually
adds (`N = 3`, one elevation invocation). -/
theorem buildScript_single_elevation_witness :
    (∀ c ∈ installerCmds, isPkexecInvocation c.command = false)
      ∧ ((buildScript "2025-01-01T00:00:00.000Z" installerCmds).countP isPkexecInvocation
            = min (installerCmds.countP (fun c => c.requiresSudo)) 1
          ∧ ∀ c ∈ installerCmds, c.requiresSudo = true →
              c.command ∈ sudoScriptLines 0 (installerCmds.filter (fun c => c.requiresSudo))) :=
  ⟨by decide, buildScript_single_elevation "2025-01-01T00:00:00.000Z" installerCmds (by decide)⟩

/-!
## A bash model for the generated script

The generated script runs under `set -e` (line 30): a failing command makes
`bash` exit immediately.  `runLines` walks the script's lines tracking
whether execution is inside the heredoc that writes the sudo sub-script
(those lines are data, not commands), and whether the temporary sub-script
file currently exists.  The only command allowed to fail is the single
`pkexec` invocation, whose outcome is the oracle `pkexecOk`; this is the
case the claim about sub-script cleanup is about.  The result is whether the
temporary sub-script file exists once the script has exited.
-/

def runLines (pkexecOk : Bool) : List String → Bool → Bool → Bool
  | [], _, tmp => tmp
  | l :: rest, inHeredoc, tmp =>
    if inHeredoc then
      -- heredoc data line; `EOF` closes the heredoc
      if l = "EOF" then runLines pkexecOk rest false tmp
      else runLines pkexecOk rest true tmp
    else if l = mktempLine then
      -- mktemp creates the temporary file
      runLines pkexecOk rest false true
    else if l = catLine then
      -- start of the heredoc redirected into the temporary file
      runLines pkexecOk rest true tmp
    else if l = pkexecLine then
      -- the elevated sub-script; under `set -e` a failure aborts the script
      if pkexecOk then runLines pkexecOk rest false tmp else tmp
    else if l = rmLine then
      -- `rm -f` deletes the temporary file
      runLines pkexecOk rest false false
    else
      runLines pkexecOk rest false tmp

/-- Run a generated script from its beginning: not inside a heredoc, and the
temporary sub-script not yet created.  Returns whether the temporary
sub-script file still exists after the run. -/
def tmpLeftAfterRun (pkexecOk : Bool) (lines : List String) : Bool :=
  runLines pkexecOk lines false false

theorem string_ne_of_head (s t : String) (a b : Char) (hs : s.data.head? = some a)
    (ht : t.data.head? = some b) (hab : a ≠ b) : s ≠ t := by
  intro h
  subst h
  rw [hs] at ht
  exact hab (Option.some.inj ht)

theorem string_ne_of_second (s t : String) (a b : Char)
    (hs : s.data.tail.head? = some a) (ht : t.data.tail.head? = some b)
    (hab : a ≠ b) : s ≠ t := by
  intro h
  subst h
  rw [hs] at ht
  exact hab (Option.some.inj ht)

theorem runLines_other (ok : Bool) (l : String) (rest : List String) (tmp : Bool)
    (h1 : l ≠ mktempLine) (h2 : l ≠ catLine) (h3 : l ≠ pkexecLine) (h4 : l ≠ rmLine) :
    runLines ok (l :: rest) false tmp = runLines ok rest false tmp := by
  simp [runLines, h1, h2, h3, h4]

theorem runLines_heredoc_step (ok : Bool) (l : String) (rest : List String) (tmp : Bool)
    (h : l ≠ "EOF") :
    runLines ok (l :: rest) true tmp = runLines ok rest true tmp := by
  simp [runLines, h]

theorem runLines_mktemp (ok : Bool) (rest : List String) (tmp : Bool) :
    runLines ok (mktempLine :: rest) false tmp = runLines ok rest false true := rfl

theorem runLines_cat (ok : Bool) (rest : List String) (tmp : Bool) :
    runLines ok (catLine :: rest) false tmp = runLines ok rest true tmp := rfl

theorem runLines_pkexec (ok : Bool) (rest : List String) (tmp : Bool) :
    runLines ok (pkexecLine :: rest) false tmp
      = if ok then runLines ok rest false tmp else tmp := rfl

theorem runLines_rm (ok : Bool) (rest : List String) (tmp : Bool) :
    runLines ok (rmLine :: rest) false tmp = runLines ok rest false false := rfl

theorem runLines_eof (ok : Bool) (rest : List String) (tmp : Bool) :
    runLines ok ("EOF" :: rest) true tmp = runLines ok rest false tmp := rfl

theorem runLines_trailer (ok : Bool) (tmp : Bool) :
    runLines ok trailerLines false tmp = tmp := rfl

theorem runLines_header (ok : Bool) (now : String) (rest : List String) (tmp : Bool) :
    runLines ok (headerLines now ++ rest) false tmp = runLines ok rest false tmp := by
  simp only [headerLines, List.cons_append, List.nil_append]
  rw [runLines_other _ _ _ _ (by decide) (by decide) (by decide) (by decide)]
  rw [runLines_other _ _ _ _ (by decide) (by decide) (by decide) (by decide)]
  rw [runLines_other _ _ _ _ (by decide) (by decide) (by decide) (by decide)]
  rw [runLines_other _ _ _ _ (by decide) (by decide) (by decide) (by decide)]
  rw [runLines_other _ _ _ _
    (by exact string_ne_of_head _ _ '#' 'S' rfl rfl (by decide))
    (by exact string_ne_of_head _ _ '#' 'c' rfl rfl (by decide))
    (by exact string_ne_of_head _ _ '#' 'p' rfl rfl (by decide))
    (by exact string_ne_of_head _ _ '#' 'r' rfl rfl (by decide))]
  rw [runLines_other _ _ _ _ (by decide) (by decide) (by decide) (by decide)]
  rw [runLines_other _ _ _ _ (by decide) (by decide) (by decide) (by decide)]
  rw [runLines_other _ _ _ _ (by decide) (by decide) (by decide) (by decide)]
  rw [runLines_other _ _ _ _ (by decide) (by decide) (by decide) (by decide)]
  rw [runLines_other _ _ _ _ (by decide) (by decide) (by decide) (by decide)]

theorem runLines_regularLines (ok : Bool) (i : Nat) (cmds : List InstallCommand)
    (rest : List String) (tmp : Bool)
    (hsafe : ∀ c ∈ cmds, c.command ≠ mktempLine ∧ c.command ≠ catLine
        ∧ c.command ≠ pkexecLine ∧ c.command ≠ rmLine) :
    runLines ok (regularLines i cmds ++ rest) false tmp = runLines ok rest false tmp := by
  induction cmds generalizing i with
  | nil => rfl
  | cons c cs ih =>
    obtain ⟨h1, h2, h3, h4⟩ := hsafe c (List.mem_cons_self _ _)
    simp only [regularLines, List.cons_append]
    rw [runLines_other _ _ _ _
      (by exact string_ne_of_head _ _ 'p' 'S' rfl rfl (by decide))
      (by exact string_ne_of_head _ _ 'p' 'c' rfl rfl (by decide))
      (by exact string_ne_of_second _ _ 'r' 'k' rfl rfl (by decide))
      (by exact string_ne_of_head _ _ 'p' 'r' rfl rfl (by decide))]
    rw [runLines_other _ _ _ _
      (by exact string_ne_of_head _ _ 'e' 'S' rfl rfl (by decide))
      (by exact string_ne_of_head _ _ 'e' 'c' rfl rfl (by decide))
      (by exact string_ne_of_head _ _ 'e' 'p' rfl rfl (by decide))
      (by exact string_ne_of_head _ _ 'e' 'r' rfl rfl (by decide))]
    rw [runLines_other _ _ _ _ h1 h2 h3 h4]
    rw [runLines_other _ _ _ _ (by decide) (by decide) (by decide) (by decide)]
    exact ih _ (fun x hx => hsafe x (List.mem_cons_of_mem _ hx))

theorem runLines_sudoEchoLines (ok : Bool) (cmds : List InstallCommand)
    (rest : List String) (tmp : Bool) :
    runLines ok (sudoEchoLines cmds ++ rest) false tmp = runLines ok rest false tmp := by
  induction cmds with
  | nil => rfl
  | cons c cs ih =>
    simp only [sudoEchoLines, List.map_cons, List.cons_append]
    rw [runLines_other _ _ _ _
      (by exact string_ne_of_head _ _ 'e' 'S' rfl rfl (by decide))
      (by exact string_ne_of_head _ _ 'e' 'c' rfl rfl (by decide))
      (by exact string_ne_of_head _ _ 'e' 'p' rfl rfl (by decide))
      (by exact string_ne_of_head _ _ 'e' 'r' rfl rfl (by decide))]
    exact ih

theorem runLines_heredocBody (ok : Bool) (i : Nat) (cmds : List InstallCommand)
    (rest : List String) (tmp : Bool)
    (hEOF : ∀ c ∈ cmds, c.command ≠ "EOF") :
    runLines ok (sudoScriptLines i cmds ++ rest) true tmp = runLines ok rest true tmp := by
  induction cmds generalizing i with
  | nil => rfl
  | cons c cs ih =>
    simp only [sudoScriptLines, List.cons_append]
    rw [runLines_heredoc_step _ _ _ _ (by exact string_ne_of_head _ _ 'e' 'E' rfl rfl (by decide))]
    rw [runLines_heredoc_step _ _ _ _ (by exact string_ne_of_head _ _ 'e' 'E' rfl rfl (by decide))]
    rw [runLines_heredoc_step _ _ _ _ (hEOF c (List.mem_cons_self _ _))]
    rw [runLines_heredoc_step _ _ _ _ (by decide)]
    exact ih _ (fun x hx => hEOF x (List.mem_cons_of_mem _ hx))

theorem runLines_buildScript (ok : Bool) (now : String) (cmds : List InstallCommand)
    (hsafe : ∀ c ∈ cmds, c.requiresSudo = false →
        c.command ≠ mktempLine ∧ c.command ≠ catLine
          ∧ c.command ≠ pkexecLine ∧ c.command ≠ rmLine)
    (hEOF : ∀ c ∈ cmds, c.requiresSudo = true → c.command ≠ "EOF")
    (hN : 0 < cmds.countP (fun c => c.requiresSudo)) :
    tmpLeftAfterRun ok (buildScript now cmds) = if ok then false else true := by
  have hlen : 0 < (cmds.filter (fun c => c.requiresSudo)).length := by
    rwa [List.countP_eq_length_filter] at hN
  have hsafe' : ∀ c ∈ cmds.filter (fun cmd => !cmd.requiresSudo),
      c.command ≠ mktempLine ∧ c.command ≠ catLine
        ∧ c.command ≠ pkexecLine ∧ c.command ≠ rmLine := by
    intro c hc
    have hm := List.mem_filter.mp hc
    exact hsafe c hm.1 (by simpa using hm.2)
  have hEOF' : ∀ c ∈ cmds.filter (fun c => c.requiresSudo), c.command ≠ "EOF" := by
    intro c hc
    have hm := List.mem_filter.mp hc
    exact hEOF c hm.1 (by simpa using hm.2)
  unfold tmpLeftAfterRun buildScript
  simp only [List.append_assoc]
  rw [runLines_header]
  have hmain : ∀ tmp : Bool,
      runLines ok (sudoBlock (cmds.filter (fun c => c.requiresSudo)) ++ trailerLines)
          false tmp = if ok then false else true := by
    intro tmp
    rw [sudoBlock, if_pos hlen]
    simp only [List.cons_append, List.append_assoc]
    rw [runLines_other _ _ _ _ (by decide) (by decide) (by decide) (by decide)]
    rw [runLines_other _ _ _ _ (by decide) (by decide) (by decide) (by decide)]
    rw [runLines_sudoEchoLines]
    simp only [List.cons_append, List.nil_append]
    rw [runLines_other _ _ _ _ (by decide) (by decide) (by decide) (by decide)]
    rw [runLines_other _ _ _ _ (by decide) (by decide) (by decide) (by decide)]
    rw [runLines_mktemp, runLines_cat]
    rw [runLines_heredoc_step _ _ _ _ (by decide)]
    rw [runLines_heredoc_step _ _ _ _ (by decide)]
    rw [runLines_heredocBody _ _ _ _ _ hEOF']
    rw [runLines_eof]
    rw [runLines_other _ _ _ _ (by decide) (by decide) (by decide) (by decide)]
    rw [runLines_other _ _ _ _ (by decide) (by decide) (by decide) (by decide)]
    rw [runLines_pkexec]
    cases ok with
    | true => rw [if_pos rfl, runLines_rm, runLines_trailer]; rfl
    | false => rfl
  by_cases hr : 0 < (cmds.filter (fun cmd => !cmd.requiresSudo)).length
  · rw [regularBlock, if_pos hr]
    simp only [List.cons_append]
    rw [runLines_other _ _ _ _ (by decide) (by decide) (by decide) (by decide)]
    rw [runLines_regularLines _ _ _ _ _ hsafe']
    exact hmain false
  · rw [regularBlock, if_neg hr]
    rw [List.nil_append]
    exact hmain false

/-- Claim C3 (amended): for every script built from at least one privileged
command, the temporary sudo sub-script is deleted after a *successful*
elevation invocation; when the elevated sub-script *fails*, `set -e` aborts
the outer script before the `rm -f` line runs, so the temporary file is left
behind.  (The hypotheses keep command strings from colliding with the
script's own control lines.) -/
theorem sudoScript_cleanup_amended (now : String) (cmds : List InstallCommand)
    (hsafe : ∀ c ∈ cmds, c.requiresSudo = false →
        c.command ≠ mktempLine ∧ c.command ≠ catLine
          ∧ c.command ≠ pkexecLine ∧ c.command ≠ rmLine)
    (hEOF : ∀ c ∈ cmds, c.requiresSudo = true → c.command ≠ "EOF")
    (hN : 0 < cmds.countP (fun c => c.requiresSudo)) :
    tmpLeftAfterRun true (buildScript now cmds) = false
      ∧ tmpLeftAfterRun false (buildScript now cmds) = true := by
  constructor
  · have h := runLines_buildScript true now cmds hsafe hEOF hN
    simpa using h
  · have h := runLines_buildScript false now cmds hsafe hEOF hN
    simpa using h

/-- Witness for the amended C3 at the executor's actual command list. -/
theorem sudoScript_cleanup_amended_witness :
    ((∀ c ∈ installerCmds, c.requiresSudo = false →
        c.command ≠ mktempLine ∧ c.command ≠ catLine
          ∧ c.command ≠ pkexecLine ∧ c.command ≠ rmLine)
      ∧ (∀ c ∈ installerCmds, c.requiresSudo = true → c.command ≠ "EOF")
      ∧ 0 < installerCmds.countP (fun c => c.requiresSudo))
      ∧ (tmpLeftAfterRun true (buildScript "2025-01-01T00:00:00.000Z" installerCmds) = false
          ∧ tmpLeftAfterRun false (buildScript "2025-01-01T00:00:00.000Z" installerCmds) = true) :=
  ⟨⟨by decide, by decide, by decide⟩,
    sudoScript_cleanup_amended "2025-01-01T00:00:00.000Z" installerCmds
      (by decide) (by decide) (by decide)⟩

/-- Counterexample to C3 as stated: for the concrete script built from the
executor's privileged commands, when the elevated sub-script fails the
temporary sudo sub-script is *not* deleted (the `rm -f` after `pkexec` is
never reached because the script runs under `set -e`). -/
theorem sudoScript_cleanup_counterexample :
    tmpLeftAfterRun false (buildScript "2025-01-01T00:00:00.000Z" installerCmds) = true := by
  decide

/-!
## system-setup.ts: requirements, plan and execution
-/

/-- Status values of a `SystemRequirement` (system-setup.ts line 7). -/
inductive ReqStatus
  | checking
  | found
  | missing
  | error
  | skipped
deriving Repr, DecidableEq

/-- `SystemRequirement` (system-setup.ts lines 5-11). -/
structure SystemRequirement where
  name : String
  status : ReqStatus
  version : Option String := none
  details : Option String := none
  required : Bool
deriving Repr, DecidableEq

/-- Install methods of a plan item (system-setup.ts line 16). -/
inductive InstallMethod
  | apt
  | npm
  | download
  | manual
deriving Repr, DecidableEq

/-- An element of `InstallationPlan.items` (system-setup.ts lines 14-20). -/
structure PlanItem where
  name : String
  method : InstallMethod
  size : String
  estimatedTime : String
  description : String
deriving Repr, DecidableEq

/-- `InstallationPlan` (system-setup.ts lines 13-24). -/
structure InstallationPlan where
  items : List PlanItem
  totalTime : String
  requiresSudo : Bool
  canAutoInstall : Bool
deriving Repr, DecidableEq

/-- The item pushed for a missing Node.js (system-setup.ts lines 166-172). -/
def nodeItem : PlanItem :=
  ⟨"Node.js", InstallMethod.apt, "~15MB", "2-3 minutes",
   "JavaScript runtime required for Claude Code CLI"⟩

/-- The item pushed for a missing Claude Code CLI (lines 178-184). -/
def claudeItem : PlanItem :=
  ⟨"Claude Code CLI", InstallMethod.npm, "~5MB", "1-2 minutes",
   "Anthropic\x27s command-line interface for Claude"⟩

/-- One iteration of the `for`-loop of `createInstallationPlan`
(lines 163-188).  The accumulator carries `(items, requiresSudo,
totalTimeMinutes)`; the `switch` on the requirement's name pushes an item
for the two known names and leaves the accumulator alone otherwise. -/
def planStep (acc : List PlanItem × Bool × Nat) (req : SystemRequirement) :
    List PlanItem × Bool × Nat :=
  if req.name = "Node.js" then
    (acc.1 ++ [nodeItem], true, acc.2.2 + 3)
  else if req.name = "Claude Code CLI" then
    (acc.1 ++ [claudeItem], acc.2.1, acc.2.2 + 2)
  else acc

/-- `SystemSetup.createInstallationPlan` (lines 158-196): only requirements
whose status is exactly `missing` enter the loop. -/
def createInstallationPlan (missingRequirements : List SystemRequirement) :
    InstallationPlan :=
  let acc := (missingRequirements.filter
      (fun r => r.status = ReqStatus.missing)).foldl planStep ([], false, 0)
  { items := acc.1
    totalTime := toString acc.2.2 ++ "-" ++ toString (acc.2.2 + 2) ++ " minutes"
    requiresSudo := acc.2.1
    canAutoInstall := decide (acc.1.length > 0) }

/-- The commands `LinuxPlatformService.installAllDependencies` adds to the
script builder for the given missing dependency names
(linux-platform-service.ts lines 176-192). -/
def installAllCommands (missingDeps : List String) : List InstallCommand :=
  (if missingDeps.contains "Node.js" then
    [⟨"apt-get update", "Updating package list", true⟩,
     ⟨"apt-get install -y nodejs npm", "Installing Node.js and npm", true⟩]
   else [])
  ++ (if missingDeps.contains "Claude Code CLI" then
    [⟨"npm install -g @anthropic-ai/claude-code", "Installing Claude Code CLI", true⟩]
   else [])

/-- Whether the executor installs the named dependency through at least one
elevated command (derived from `installAllCommands`). -/
def depNeedsElevation (name : String) : Bool :=
  (installAllCommands [name]).any (fun c => c.requiresSudo)

/-- Outcomes of the external calls made by `installAllDependencies`
(linux-platform-service.ts lines 195-215): running the combined script via
`runInstallScript`, and the two post-install version probes
(`node --version`, `claude --version`).  `Except.error` is a rejected
promise carrying the error message. -/
structure InstallEnv where
  scriptRun : Except String Unit
  nodeProbe : Bool
  claudeProbe : Bool

/-- `LinuxPlatformService.installAllDependencies` (lines 168-226): runs the
combined script, then re-probes every dependency that was supposed to be
installed; the first failing step's error becomes the method's rejection. -/
def installAllDependencies (missingDeps : List String) (env : InstallEnv) :
    Except String Unit :=
  match env.scriptRun with
  | .error e => .error e
  | .ok _ =>
    if missingDeps.contains "Node.js" && !env.nodeProbe then
      .error "Node.js installation verification failed"
    else if missingDeps.contains "Claude Code CLI" && !env.claudeProbe then
      .error "Claude Code CLI installation verification failed"
    else .ok ()

/-- `SystemSetup.executeInstallationPlan` (system-setup.ts lines 198-234):
returns `false` when `installAllDependencies` rejects; otherwise re-checks
all requirements (`finalCheck` stands for that re-check's result) and
succeeds iff every requirement is found, skipped, or not required. -/
def executeInstallationPlan (plan : InstallationPlan) (env : InstallEnv)
    (finalCheck : List SystemRequirement) : Bool :=
  match installAllDependencies (plan.items.map (fun i => i.name)) env with
  | .error _ => false
  | .ok _ =>
    finalCheck.all (fun req =>
      decide (req.status = ReqStatus.found)
        || decide (req.status = ReqStatus.skipped)
        || !req.required)

/-- Claim C2: when the combined script exits zero but a post-install probe
for one of the missing dependencies fails, `installAllDependencies` rejects,
and any installation run built on those dependencies reports failure. -/
theorem verification_failure_fails_run (missingDeps : List String) (env : InstallEnv)
    (hexit : env.scriptRun = Except.ok ())
    (hfail : ("Node.js" ∈ missingDeps ∧ env.nodeProbe = false)
        ∨ ("Claude Code CLI" ∈ missingDeps ∧ env.claudeProbe = false)) :
    (∃ e, installAllDependencies missingDeps env = Except.error e)
      ∧ ∀ (plan : InstallationPlan) (finalCheck : List SystemRequirement),
          plan.items.map (fun i => i.name) = missingDeps →
          executeInstallationPlan plan env finalCheck = false := by
  have herr : ∃ e, installAllDependencies missingDeps env = Except.error e := by
    unfold installAllDependencies
    rw [hexit]
    rcases hfail with ⟨hmem, hprobe⟩ | ⟨hmem, hprobe⟩
    · have hc : missingDeps.contains "Node.js" = true := by
        exact List.elem_eq_true_of_mem hmem
      refine ⟨"Node.js installation verification failed", ?_⟩
      rw [hc, hprobe]
      rfl
    · by_cases hnode : (missingDeps.contains "Node.js" && !env.nodeProbe) = true
      · exact ⟨"Node.js installation verification failed", by rw [hnode]; rfl⟩
      · have h2 : (missingDeps.contains "Node.js" && !env.nodeProbe) = false :=
          Bool.eq_false_iff.mpr hnode
        have hc : missingDeps.contains "Claude Code CLI" = true := by
          exact List.elem_eq_true_of_mem hmem
        refine ⟨"Claude Code CLI installation verification failed", ?_⟩
        rw [h2, hc, hprobe]
        rfl
  refine ⟨herr, ?_⟩
  intro plan finalCheck hnames
  unfold executeInstallationPlan
  rw [hnames]
  obtain ⟨e, he⟩ := herr
  rw [he]

/-- Witness for C2: both dependencies were supposed to be installed, the
script exited zero, but the `claude --version` probe fails. -/
theorem verification_failure_fails_run_witness :
    (((⟨Except.ok (), true, false⟩ : InstallEnv).scriptRun = Except.ok ())
        ∧ (("Node.js" ∈ ["Node.js", "Claude Code CLI"]
              ∧ (⟨Except.ok (), true, false⟩ : InstallEnv).nodeProbe = false)
            ∨ ("Claude Code CLI" ∈ ["Node.js", "Claude Code CLI"]
              ∧ (⟨Except.ok (), true, false⟩ : InstallEnv).claudeProbe = false)))
      ∧ ((∃ e, installAllDependencies ["Node.js", "Claude Code CLI"]
              ⟨Except.ok (), true, false⟩ = Except.error e)
          ∧ ∀ (plan : InstallationPlan) (finalCheck : List SystemRequirement),
              plan.items.map (fun i => i.name) = ["Node.js", "Claude Code CLI"] →
              executeInstallationPlan plan ⟨Except.ok (), true, false⟩ finalCheck = false) :=
  ⟨⟨rfl, Or.inr ⟨by decide, rfl⟩⟩,
    verification_failure_fails_run ["Node.js", "Claude Code CLI"]
      ⟨Except.ok (), true, false⟩ rfl (Or.inr ⟨by decide, rfl⟩)⟩

theorem foldl_planStep_sudo (l : List SystemRequirement)
    (acc : List PlanItem × Bool × Nat) :
    (l.foldl planStep acc).2.1
      = (acc.2.1 || l.any (fun q => decide (q.name = "Node.js"))) := by
  induction l generalizing acc with
  | nil => simp
  | cons q l' ih =>
    rw [List.foldl_cons, ih]
    by_cases hn : q.name = "Node.js"
    · simp [planStep, hn]
    · by_cases hc : q.name = "Claude Code CLI"
      · simp [planStep, hn, hc]
      · simp [planStep, hn, hc]

theorem foldl_planStep_mem (l : List SystemRequirement)
    (acc : List PlanItem × Bool × Nat) (it : PlanItem) :
    it ∈ (l.foldl planStep acc).1
      ↔ it ∈ acc.1
        ∨ (it = nodeItem ∧ l.any (fun q => decide (q.name = "Node.js")) = true)
        ∨ (it = claudeItem ∧ l.any (fun q => decide (q.name = "Claude Code CLI")) = true) := by
  induction l generalizing acc with
  | nil => simp
  | cons q l' ih =>
    rw [List.foldl_cons, ih, List.any_cons, List.any_cons]
    by_cases hn : q.name = "Node.js"
    · have h1 : decide (q.name = "Node.js") = true := by simp [hn]
      have h2 : decide (q.name = "Claude Code CLI") = false := by simp [hn]
      rw [h1, h2, Bool.true_or, Bool.false_or,
        show planStep acc q = (acc.1 ++ [nodeItem], true, acc.2.2 + 3) from by
          simp [planStep, hn]]
      simp only [List.mem_append, List.mem_singleton, and_true]
      tauto
    · by_cases hc : q.name = "Claude Code CLI"
      · have h1 : decide (q.name = "Node.js") = false := by simp [hn]
        have h2 : decide (q.name = "Claude Code CLI") = true := by simp [hc]
        rw [h1, h2, Bool.false_or, Bool.true_or,
          show planStep acc q = (acc.1 ++ [claudeItem], acc.2.1, acc.2.2 + 2) from by
            simp [planStep, hn, hc]]
        simp only [List.mem_append, List.mem_singleton, and_true]
        tauto
      · have h1 : decide (q.name = "Node.js") = false := by simp [hn]
        have h2 : decide (q.name = "Claude Code CLI") = false := by simp [hc]
        rw [h1, h2, Bool.false_or, Bool.false_or,
          show planStep acc q = acc from by simp [planStep, hn, hc]]

/-- Claim C4 (amended): `requiresSudo` of the plan is true iff the plan
contains the Node.js item — the only case in which `createInstallationPlan`
sets the flag.  This is *weaker* than the spec's invariant: the Claude Code
CLI item is installed by the executor through an elevated command, yet a
plan containing only that item reports `requiresSudo = false` (see the
counterexample).  `canAutoInstall` is true iff the items list is
non-empty, as the spec states. -/
theorem plan_flags (reqs : List SystemRequirement) :
    ((createInstallationPlan reqs).requiresSudo = true
        ↔ ∃ it ∈ (createInstallationPlan reqs).items, it.name = "Node.js")
      ∧ ((createInstallationPlan reqs).canAutoInstall = true
        ↔ (createInstallationPlan reqs).items ≠ []) := by
  constructor
  · simp only [createInstallationPlan]
    rw [foldl_planStep_sudo]
    simp only [Bool.false_or]
    constructor
    · intro hany
      refine ⟨nodeItem, ?_, rfl⟩
      rw [foldl_planStep_mem]
      exact Or.inr (Or.inl ⟨rfl, hany⟩)
    · rintro ⟨it, hmem, hname⟩
      rw [foldl_planStep_mem] at hmem
      rcases hmem with h | ⟨rfl, hany⟩ | ⟨rfl, _⟩
      · cases h
      · exact hany
      · exact absurd hname (by decide)
  · simp [createInstallationPlan, List.length_pos]

/-- Counterexample to C4 as stated: for the input consisting of the single
missing requirement `Claude Code CLI`, the plan's only item is installed by
the executor via an elevated command (`npm install -g ...` with
`requiresSudo = true`), yet the plan reports `requiresSudo = false`; so
`requiresSudo` is *not* equivalent to "some item needs elevated
installation". -/
theorem plan_requiresSudo_counterexample :
    ¬ ((createInstallationPlan
          [⟨"Claude Code CLI", ReqStatus.missing, none, none, true⟩]).requiresSudo = true
        ↔ ∃ it ∈ (createInstallationPlan
            [⟨"Claude Code CLI", ReqStatus.missing, none, none, true⟩]).items,
              depNeedsElevation it.name = true) := by
  decide

/-- Claim C9: only requirements whose status is exactly `missing` contribute
to the plan (the plan built from `reqs` equals the plan built from the
`missing`-filtered input), and every plan item stems from a missing input
requirement named `Node.js` or `Claude Code CLI`; all other names are
omitted. -/
theorem plan_items_only_missing (reqs : List SystemRequirement) :
    createInstallationPlan reqs
        = createInstallationPlan
            (reqs.filter (fun r => r.status = ReqStatus.missing))
      ∧ ∀ it ∈ (createInstallationPlan reqs).items,
          (it = nodeItem ∨ it = claudeItem)
            ∧ ∃ q ∈ reqs, q.status = ReqStatus.missing ∧ q.name = it.name := by
  constructor
  · simp only [createInstallationPlan]
    rw [List.filter_filter]
    have : (reqs.filter fun a =>
          decide (a.status = ReqStatus.missing) && decide (a.status = ReqStatus.missing))
        = reqs.filter fun r => decide (r.status = ReqStatus.missing) := by
      apply List.filter_congr
      intro a _
      rw [Bool.and_self]
    rw [this]
  · intro it hmem
    simp only [createInstallationPlan] at hmem
    rw [foldl_planStep_mem] at hmem
    rcases hmem with h | ⟨rfl, hany⟩ | ⟨rfl, hany⟩
    · cases h
    · refine ⟨Or.inl rfl, ?_⟩
      rw [List.any_eq_true] at hany
      obtain ⟨q, hq, hqn⟩ := hany
      have hm := List.mem_filter.mp hq
      exact ⟨q, hm.1, by simpa using hm.2, by simpa using hqn⟩
    · refine ⟨Or.inr rfl, ?_⟩
      rw [List.any_eq_true] at hany
      obtain ⟨q, hq, hqn⟩ := hany
      have hm := List.mem_filter.mp hq
      exact ⟨q, hm.1, by simpa using hm.2, by simpa using hqn⟩

/-- Witness for C9 at a single missing Node.js requirement. -/
theorem plan_items_only_missing_witness :
    (nodeItem ∈ (createInstallationPlan
        [⟨"Node.js", ReqStatus.missing, none, none, true⟩]).items)
      ∧ ((nodeItem = nodeItem ∨ nodeItem = claudeItem)
          ∧ ∃ q ∈ [(⟨"Node.js", ReqStatus.missing, none, none, true⟩ : SystemRequirement)],
              q.status = ReqStatus.missing ∧ q.name = nodeItem.name) :=
  ⟨by decide,
    (plan_items_only_missing [⟨"Node.js", ReqStatus.missing, none, none, true⟩]).2
      nodeItem (by decide)⟩

/-!
## checkAllRequirements (system-setup.ts lines 72-156)

The loop walks the four fixed requirements in declaration order and mutates
each one according to the `switch` on its name; every case is wrapped in a
`try`/`catch` that turns a rejected probe into `status = 'error'`.  The
embedding unrolls the loop over the literal four-element list; the
`requirements.find(r => r.name === 'Claude Code CLI')` lookup in the
authentication case resolves to the third element, whose status was decided
in the previous iteration.  The second component of the result records
whether `claudeAuthManager.checkAuthentication()` was actually invoked.
-/

/-- Result of `platformService.getOSInfo()`
(linux-platform-service.ts lines 31-75). -/
structure OSInfo where
  supported : Bool
  version : String
  details : String

/-- Result of `checkNodeJS` / `checkClaudeCode`
(linux-platform-service.ts lines 120-166). -/
structure FoundInfo where
  found : Bool
  version : Option String := none
  details : Option String := none

/-- Result of `claudeAuthManager.checkAuthentication()`. -/
structure AuthInfo where
  authenticated : Bool
  details : Option String := none

/-- Outcomes of the four awaited probes; `Except.error m` is a rejected
promise with message `m`, caught by the `catch` of system-setup.ts
lines 143-146. -/
structure CheckEnv where
  osInfo : Except String OSInfo
  nodeInfo : Except String FoundInfo
  claudeInfo : Except String FoundInfo
  authInfo : Except String AuthInfo

/-- The `'Operating System'` case (lines 105-110) with its `catch`. -/
def checkOS (env : CheckEnv) (req : SystemRequirement) : SystemRequirement :=
  match env.osInfo with
  | .ok info =>
    { req with
        status := if info.supported then ReqStatus.found else ReqStatus.error
        version := some info.version
        details := some info.details }
  | .error m =>
    { req with status := ReqStatus.error, details := some ("Check failed: " ++ m) }

/-- The `'Node.js'` case (lines 112-117) with its `catch`. -/
def checkNode (env : CheckEnv) (req : SystemRequirement) : SystemRequirement :=
  match env.nodeInfo with
  | .ok info =>
    { req with
        status := if info.found then ReqStatus.found else ReqStatus.missing
        version := info.version
        details := info.details }
  | .error m =>
    { req with status := ReqStatus.error, details := some ("Check failed: " ++ m) }

/-- The `'Claude Code CLI'` case (lines 119-124) with its `catch`. -/
def checkClaude (env : CheckEnv) (req : SystemRequirement) : SystemRequirement :=
  match env.claudeInfo with
  | .ok info =>
    { req with
        status := if info.found then ReqStatus.found else ReqStatus.missing
        version := info.version
        details := info.details }
  | .error m =>
    { req with status := ReqStatus.error, details := some ("Check failed: " ++ m) }

/-- The `'Claude Authentication'` case (lines 126-141) with its `catch`:
skipped unless the already-resolved Claude Code CLI requirement is `found`;
otherwise the authentication check runs (second component `true`). -/
def checkAuth (env : CheckEnv) (req : SystemRequirement)
    (claudeStatus : ReqStatus) : SystemRequirement × Bool :=
  if claudeStatus ≠ ReqStatus.found then
    ({ req with
        status := ReqStatus.skipped
        details := some "Skipped - Claude Code CLI not installed" }, false)
  else
    match env.authInfo with
    | .ok info =>
      ({ req with
          status := if info.authenticated then ReqStatus.found else ReqStatus.missing
          details := info.details }, true)
    | .error m =>
      ({ req with status := ReqStatus.error, details := some ("Check failed: " ++ m) },
        true)

/-- The initial `'Operating System'` requirement (lines 74-78). -/
def initOS : SystemRequirement :=
  ⟨"Operating System", ReqStatus.checking, none, none, true⟩

/-- The initial `'Node.js'` requirement (lines 79-83). -/
def initNode : SystemRequirement :=
  ⟨"Node.js", ReqStatus.checking, none, none, true⟩

/-- The initial `'Claude Code CLI'` requirement (lines 84-88). -/
def initClaude : SystemRequirement :=
  ⟨"Claude Code CLI", ReqStatus.checking, none, none, true⟩

/-- The initial `'Claude Authentication'` requirement (lines 89-93). -/
def initAuth : SystemRequirement :=
  ⟨"Claude Authentication", ReqStatus.checking, none, none, true⟩

/-- `SystemSetup.checkAllRequirements` (lines 72-156), unrolled over the
literal requirement list of lines 73-94.  Returns the final requirement
snapshots and whether the authentication check was attempted. -/
def checkAllRequirements (env : CheckEnv) : List SystemRequirement × Bool :=
  let os := checkOS env initOS
  let node := checkNode env initNode
  let claude := checkClaude env initClaude
  let auth := checkAuth env initAuth claude.status
  ([os, node, claude, auth.1], auth.2)

/-- Shorthand for the resolved Claude Code CLI requirement of a run. -/
def claudeResolved (env : CheckEnv) : SystemRequirement :=
  checkClaude env initClaude

theorem checkOS_status (env : CheckEnv) (req : SystemRequirement) :
    (checkOS env req).status = ReqStatus.found ∨ (checkOS env req).status = ReqStatus.error := by
  unfold checkOS
  cases env.osInfo with
  | ok info => cases h : info.supported <;> simp [h]
  | error m => simp

theorem checkNode_status (env : CheckEnv) (req : SystemRequirement) :
    (checkNode env req).status = ReqStatus.found
      ∨ (checkNode env req).status = ReqStatus.missing
      ∨ (checkNode env req).status = ReqStatus.error := by
  unfold checkNode
  cases env.nodeInfo with
  | ok info => cases h : info.found <;> simp [h]
  | error m => simp

theorem checkClaude_status (env : CheckEnv) (req : SystemRequirement) :
    (checkClaude env req).status = ReqStatus.found
      ∨ (checkClaude env req).status = ReqStatus.missing
      ∨ (checkClaude env req).status = ReqStatus.error := by
  unfold checkClaude
  cases env.claudeInfo with
  | ok info => cases h : info.found <;> simp [h]
  | error m => simp

theorem checkAuth_status (env : CheckEnv) (req : SystemRequirement) (cs : ReqStatus) :
    (checkAuth env req cs).1.status = ReqStatus.found
      ∨ (checkAuth env req cs).1.status = ReqStatus.missing
      ∨ (checkAuth env req cs).1.status = ReqStatus.error
      ∨ (checkAuth env req cs).1.status = ReqStatus.skipped := by
  unfold checkAuth
  by_cases h : cs ≠ ReqStatus.found
  · simp [h]
  · cases env.authInfo with
    | ok info => cases ha : info.authenticated <;> simp [h, ha]
    | error m => simp [h]

theorem checkAuth_skipped (env : CheckEnv) (req : SystemRequirement) (cs : ReqStatus)
    (h : (checkAuth env req cs).1.status = ReqStatus.skipped) : cs ≠ ReqStatus.found := by
  intro hcs
  subst hcs
  unfold checkAuth at h
  simp only [ne_eq, not_true_eq_false, if_false] at h
  cases henv : env.authInfo with
  | ok info =>
    rw [henv] at h
    cases ha : info.authenticated <;> simp [ha] at h
  | error m =>
    rw [henv] at h
    simp at h

theorem checkAuth_attempted (env : CheckEnv) (req : SystemRequirement)
    (h : (claudeResolved env).status = ReqStatus.found) :
    (checkAuth env req (claudeResolved env).status).2 = true := by
  rw [h]
  unfold checkAuth
  simp only [ne_eq, not_true_eq_false, if_false]
  cases env.authInfo with
  | ok info => rfl
  | error m => rfl

theorem checkOS_name (env : CheckEnv) (req : SystemRequirement) :
    (checkOS env req).name = req.name := by
  unfold checkOS
  cases env.osInfo <;> rfl

theorem checkNode_name (env : CheckEnv) (req : SystemRequirement) :
    (checkNode env req).name = req.name := by
  unfold checkNode
  cases env.nodeInfo <;> rfl

theorem checkClaude_name (env : CheckEnv) (req : SystemRequirement) :
    (checkClaude env req).name = req.name := by
  unfold checkClaude
  cases env.claudeInfo <;> rfl

theorem checkAuth_name (env : CheckEnv) (req : SystemRequirement) (cs : ReqStatus) :
    (checkAuth env req cs).1.name = req.name := by
  unfold checkAuth
  by_cases h : cs ≠ ReqStatus.found
  · simp [h]
  · cases env.authInfo with
    | ok info => simp [h]
    | error m => simp [h]

/-- Claim C5: in every run, every requirement's final status is one of
`found`, `missing`, `error`, `skipped`; `skipped` is assigned only to the
`Claude Authentication` requirement and only when the resolved
`Claude Code CLI` requirement is not `found`; and when it is `found`, the
authentication check is actually attempted. -/
theorem checkAll_status_discipline (env : CheckEnv) :
    (∀ r ∈ (checkAllRequirements env).1,
        r.status = ReqStatus.found ∨ r.status = ReqStatus.missing
          ∨ r.status = ReqStatus.error ∨ r.status = ReqStatus.skipped)
      ∧ (∀ r ∈ (checkAllRequirements env).1, r.status = ReqStatus.skipped →
          r.name = "Claude Authentication"
            ∧ (claudeResolved env).status ≠ ReqStatus.found)
      ∧ ((claudeResolved env).status = ReqStatus.found →
          (checkAllRequirements env).2 = true) := by
  refine ⟨?_, ?_, ?_⟩
  · intro r hr
    simp only [checkAllRequirements, List.mem_cons, List.not_mem_nil, or_false] at hr
    rcases hr with rfl | rfl | rfl | rfl
    · rcases checkOS_status env initOS with h | h
      · exact Or.inl h
      · exact Or.inr (Or.inr (Or.inl h))
    · rcases checkNode_status env initNode with h | h | h
      · exact Or.inl h
      · exact Or.inr (Or.inl h)
      · exact Or.inr (Or.inr (Or.inl h))
    · rcases checkClaude_status env initClaude with h | h | h
      · exact Or.inl h
      · exact Or.inr (Or.inl h)
      · exact Or.inr (Or.inr (Or.inl h))
    · rcases checkAuth_status env initAuth (checkClaude env initClaude).status
          with h | h | h | h
      · exact Or.inl h
      · exact Or.inr (Or.inl h)
      · exact Or.inr (Or.inr (Or.inl h))
      · exact Or.inr (Or.inr (Or.inr h))
  · intro r hr hsk
    simp only [checkAllRequirements, List.mem_cons, List.not_mem_nil, or_false] at hr
    rcases hr with rfl | rfl | rfl | rfl
    · rcases checkOS_status env initOS with h | h <;> rw [h] at hsk <;> cases hsk
    · rcases checkNode_status env initNode with h | h | h <;> rw [h] at hsk <;> cases hsk
    · rcases checkClaude_status env initClaude with h | h | h <;> rw [h] at hsk <;> cases hsk
    · exact ⟨checkAuth_name env initAuth _, checkAuth_skipped env initAuth _ hsk⟩
  · intro h
    exact checkAuth_attempted env initAuth h

/-- Witness for C5, applying the theorem in two runs: one where every probe
succeeds (the authentication check is attempted), and one where the Claude
CLI probe reports it missing (the authentication requirement ends up
`skipped`). -/
theorem checkAll_status_discipline_witness :
    ((claudeResolved ⟨Except.ok ⟨true, "6.8", "Ubuntu"⟩,
          Except.ok ⟨true, some "v20", none⟩, Except.ok ⟨true, some "1.0", none⟩,
          Except.ok ⟨true, none⟩⟩).status = ReqStatus.found
        ∧ (checkAllRequirements ⟨Except.ok ⟨true, "6.8", "Ubuntu"⟩,
            Except.ok ⟨true, some "v20", none⟩, Except.ok ⟨true, some "1.0", none⟩,
            Except.ok ⟨true, none⟩⟩).2 = true)
      ∧ ((checkAuth ⟨Except.ok ⟨true, "6.8", "Ubuntu"⟩,
            Except.ok ⟨true, some "v20", none⟩, Except.ok ⟨false, none, none⟩,
            Except.ok ⟨true, none⟩⟩ initAuth
            (claudeResolved ⟨Except.ok ⟨true, "6.8", "Ubuntu"⟩,
              Except.ok ⟨true, some "v20", none⟩, Except.ok ⟨false, none, none⟩,
              Except.ok ⟨true, none⟩⟩).status).1
          ∈ (checkAllRequirements ⟨Except.ok ⟨true, "6.8", "Ubuntu"⟩,
              Except.ok ⟨true, some "v20", none⟩, Except.ok ⟨false, none, none⟩,
              Except.ok ⟨true, none⟩⟩).1
          ∧ (checkAuth ⟨Except.ok ⟨true, "6.8", "Ubuntu"⟩,
              Except.ok ⟨true, some "v20", none⟩, Except.ok ⟨false, none, none⟩,
              Except.ok ⟨true, none⟩⟩ initAuth
              (claudeResolved ⟨Except.ok ⟨true, "6.8", "Ubuntu"⟩,
                Except.ok ⟨true, some "v20", none⟩, Except.ok ⟨false, none, none⟩,
                Except.ok ⟨true, none⟩⟩).status).1.name = "Claude Authentication"
          ∧ (claudeResolved ⟨Except.ok ⟨true, "6.8", "Ubuntu"⟩,
              Except.ok ⟨true, some "v20", none⟩, Except.ok ⟨false, none, none⟩,
              Except.ok ⟨true, none⟩⟩).status ≠ ReqStatus.found) := by
  constructor
  · exact ⟨rfl, (checkAll_status_discipline _).2.2 rfl⟩
  · refine ⟨?_, ?_⟩
    · simp [checkAllRequirements, claudeResolved]
    · exact (checkAll_status_discipline _).2.1 _
        (by simp [checkAllRequirements, claudeResolved]) rfl

/-!
## bot-downloader.ts

`downloadBot()` (lines 105-175) wraps the whole pipeline in one
`try`/`catch`: any rejection inside the body is turned into a single
`stage: 'error'` progress event and a `false` result.  The embedding
computes the list of progress events a run emits together with the body's
outcome; `progress` values are rationals because the capped download
percent `progress * 0.5` takes half-integer values.
-/

/-- Stages of `DownloadProgress` (bot-downloader.ts line 16). -/
inductive Stage
  | checking
  | downloading
  | extracting
  | verifying
  | complete
  | error
deriving Repr, DecidableEq

/-- `DownloadProgress` (lines 15-22); the `error` field carries the caught
message. -/
structure DownloadProgress where
  stage : Stage
  progress : ℚ
  totalBytes : Option Nat := none
  downloadedBytes : Option Nat := none
  message : String
  error : Option String := none
deriving Repr, DecidableEq

/-- `BotRelease` (lines 24-29). -/
structure BotRelease where
  version : String
  downloadUrl : String
  size : Nat
  checksum : Option String := none
deriving Repr, DecidableEq

/-- Outcomes of the external effects of one `downloadBot()` run. -/
structure BotEnv where
  /-- When a pre-staged local bundle exists (`fs.statSync` succeeds in
  `getLatestRelease`, lines 76-84): its path (relative to `__dirname`) and
  byte size. -/
  localBundle : Option (String × Nat)
  /-- Outcome of `mkdirAsync(this.botDirectory, ...)` (line 117). -/
  mkdir : Except String Unit
  /-- Byte sizes of the data chunks delivered to the progress handler before
  the stream ends (lines 186-198 and 253-264). -/
  chunks : List Nat
  /-- Outcome of the transfer itself: `finish`, or an error event / bad HTTP
  status (lines 202-209 and 217-241 and 268-276). -/
  stream : Except String Unit
  /-- Outcome of the `tar.extract` call (lines 284-287). -/
  tar : Except String Unit
  /-- Result of `checkBotInstalled()` after extraction (line 150). -/
  botInstalled : Bool
  /-- Outcome of `fs.chmodSync` on the bot executable (line 157). -/
  chmod : Except String Unit

/-- `BotDownloader.getLatestRelease` (lines 71-103): the pre-staged local
bundle when present, else the hard-coded GitHub release descriptor. -/
def getLatestRelease (env : BotEnv) : BotRelease :=
  match env.localBundle with
  | some (p, n) => ⟨"v1.0.0-local", "file://" ++ p, n, none⟩
  | none =>
    ⟨"v1.0.0",
     "https://github.com/yourusername/toji/releases/download/v1.0.0/toji-bot-linux.tar.gz",
     14 * 1024 * 1024, none⟩

/-- `Math.round` on a non-negative JavaScript number: round half up. -/
def jsRound (x : ℚ) : ℤ := ⌊x + 1 / 2⌋

/-- The percent of a `downloading` chunk event:
`Math.min(Math.round((downloadedBytes / totalSize) * 100) * 0.5, 50)`
(lines 189-193 and 255-259). -/
def chunkPercent (total downloaded : Nat) : ℚ :=
  min ((jsRound ((downloaded : ℚ) / (total : ℚ) * 100) : ℚ) * (1 / 2)) 50

/-- `Math.round(bytes / 1024 / 1024)`, used in progress message texts. -/
def mbOf (n : Nat) : ℤ := jsRound ((n : ℚ) / 1024 / 1024)

/-- The `downloading` events emitted per data chunk, accumulating
`downloadedBytes`.  The local-file branch (lines 186-198) and the HTTP
branch (lines 253-264) compute the identical capped percent and differ only
in the message head (`"Copying local bundle... "` vs `"Downloading... "`),
passed here as `msgHead`. -/
def chunkEvents (msgHead : String) (total : Nat) :
    List Nat → Nat → List DownloadProgress
  | [], _ => []
  | c :: rest, sofar =>
    { stage := Stage.downloading
      progress := chunkPercent total (sofar + c)
      totalBytes := some total
      downloadedBytes := some (sofar + c)
      message := msgHead ++ toString (mbOf (sofar + c)) ++ "MB / "
        ++ toString (mbOf total) ++ "MB" }
      :: chunkEvents msgHead total rest (sofar + c)

/-- The test `url.startsWith('file://')` selecting the local-file branch of
`downloadFile` (line 179). -/
def isFileUrl (url : String) : Bool :=
  "file://".data.isPrefixOf url.data

/-- `BotDownloader.downloadFile` (lines 177-242): the chunk events emitted
while the transfer runs, and the transfer's outcome. -/
def downloadFile (url : String) (total : Nat) (env : BotEnv) :
    List DownloadProgress × Except String Unit :=
  if isFileUrl url then
    (chunkEvents "Copying local bundle... " total env.chunks 0, env.stream)
  else
    (chunkEvents "Downloading... " total env.chunks 0, env.stream)

/-- Node's `path.extname` (posix flavour): the suffix of the basename
starting at its last dot, or `""` when the basename has no dot or only a
leading one. -/
def extname (p : String) : String :=
  let b := (p.data.reverse.takeWhile (fun c => c ≠ '/')).reverse
  let afterDot := b.reverse.takeWhile (fun c => c ≠ '.')
  if afterDot.length = b.length then ""
  else if b.length - afterDot.length - 1 = 0 then ""
  else String.mk ('.' :: afterDot.reverse)

/-- `BotDownloader.extractArchive` (lines 279-295).  `tarResult` is the
outcome of the `tar.extract` call, consulted only when the extension is
accepted.  The second component records whether `tar.extract` was invoked at
all; `false` means nothing was written to `destination`. -/
def extractArchive (tarResult : Except String Unit) (archivePath : String)
    (destination : String) : Except String Unit × Bool :=
  let extension := extname archivePath
  if extension = ".gz" ∨ extension = ".tar" then (tarResult, true)
  else if extension = ".zip" then
    (Except.error "ZIP extraction not yet implemented", false)
  else
    (Except.error ("Unsupported archive format: " ++ extension), false)

/-- `path.join(os.tmpdir(), 'toji-bot-download.tar.gz')` (line 128), with
the usual `/tmp` temporary directory; only its `.gz` extension matters. -/
def downloadPath : String := "/tmp/toji-bot-download.tar.gz"

/-- `path.join(os.homedir(), '.toji', 'bot')` (line 38); the concrete home
directory is irrelevant to the properties below. -/
def botDirectory : String := "/home/user/.toji/bot"

/-- The `checking` event of line 107. -/
def checkingEvent : DownloadProgress :=
  ⟨Stage.checking, 0, none, none, "Checking for latest bot version...", none⟩

/-- The initial `downloading` event of lines 120-126. -/
def downloadingInitEvent (release : BotRelease) : DownloadProgress :=
  ⟨Stage.downloading, 0, some release.size, some 0,
   "Downloading bot " ++ release.version ++ " ("
     ++ toString (mbOf release.size) ++ "MB)...", none⟩

/-- The `extracting` event of lines 132-136. -/
def extractingEvent : DownloadProgress :=
  ⟨Stage.extracting, 50, none, none, "Extracting bot files...", none⟩

/-- The `verifying` event of lines 144-148. -/
def verifyingEvent : DownloadProgress :=
  ⟨Stage.verifying, 90, none, none, "Verifying bot installation...", none⟩

/-- The `complete` event of lines 159-163. -/
def completeEvent : DownloadProgress :=
  ⟨Stage.complete, 100, none, none, "Bot installed successfully!", none⟩

/-- The `error` event of lines 167-172, emitted in the `catch`. -/
def errorEvent (m : String) : DownloadProgress :=
  ⟨Stage.error, 0, none, none, "Bot download failed", some m⟩

/-- The body of `downloadBot()` inside the `try` (lines 106-165): the events
it emits and its outcome (`Except.error` = the first rejection). -/
def downloadBotBody (env : BotEnv) : List DownloadProgress × Except String Unit :=
  let release := getLatestRelease env
  match env.mkdir with
  | .error m => ([checkingEvent], .error m)
  | .ok _ =>
    let dl := downloadFile release.downloadUrl release.size env
    match dl.2 with
    | .error m => ([checkingEvent, downloadingInitEvent release] ++ dl.1, .error m)
    | .ok _ =>
      match (extractArchive env.tar downloadPath botDirectory).1 with
      | .error m =>
        ([checkingEvent, downloadingInitEvent release] ++ dl.1 ++ [extractingEvent],
          .error m)
      | .ok _ =>
        if !env.botInstalled then
          ([checkingEvent, downloadingInitEvent release] ++ dl.1
              ++ [extractingEvent, verifyingEvent],
            .error "Bot verification failed - executable not found")
        else
          match env.chmod with
          | .error m =>
            ([checkingEvent, downloadingInitEvent release] ++ dl.1
                ++ [extractingEvent, verifyingEvent],
              .error m)
          | .ok _ =>
            ([checkingEvent, downloadingInitEvent release] ++ dl.1
                ++ [extractingEvent, verifyingEvent, completeEvent],
              .ok ())

/-- `BotDownloader.downloadBot` (lines 105-175): the `catch` appends exactly
one `error` event and resolves `false`; otherwise the run resolves `true`. -/
def downloadBot (env : BotEnv) : List DownloadProgress × Bool :=
  match downloadBotBody env with
  | (evs, .ok _) => (evs, true)
  | (evs, .error m) => (evs ++ [errorEvent m], false)

theorem jsRound_nonneg (x : ℚ) (hx : 0 ≤ x) : 0 ≤ jsRound x := by
  unfold jsRound
  rw [Int.le_floor]
  push_cast
  linarith

theorem jsRound_mono (x y : ℚ) (h : x ≤ y) : jsRound x ≤ jsRound y := by
  unfold jsRound
  exact Int.floor_le_floor (by linarith)

theorem chunkPercent_nonneg (t d : Nat) : 0 ≤ chunkPercent t d := by
  unfold chunkPercent
  apply le_min
  · have h0 : (0:ℚ) ≤ (d : ℚ) / (t : ℚ) * 100 := by positivity
    have h1 := jsRound_nonneg _ h0
    have h2 : (0:ℚ) ≤ (jsRound ((d : ℚ) / (t : ℚ) * 100) : ℚ) := by exact_mod_cast h1
    linarith
  · norm_num

theorem chunkPercent_le_50 (t d : Nat) : chunkPercent t d ≤ 50 :=
  min_le_right _ _

theorem chunkPercent_mono (t d d' : Nat) (h : d ≤ d') :
    chunkPercent t d ≤ chunkPercent t d' := by
  unfold chunkPercent
  apply min_le_min _ le_rfl
  have harg : (d : ℚ) / (t : ℚ) * 100 ≤ (d' : ℚ) / (t : ℚ) * 100 := by
    apply mul_le_mul_of_nonneg_right _ (by norm_num)
    rw [div_eq_mul_inv, div_eq_mul_inv]
    apply mul_le_mul_of_nonneg_right _ (by positivity)
    exact_mod_cast h
  have h1 := jsRound_mono _ _ harg
  have h2 : (jsRound ((d : ℚ) / (t : ℚ) * 100) : ℚ)
      ≤ (jsRound ((d' : ℚ) / (t : ℚ) * 100) : ℚ) := by exact_mod_cast h1
  apply mul_le_mul_of_nonneg_right h2 (by norm_num)

theorem chunkEvents_mem (msgHead : String) (total : Nat) :
    ∀ (chunks : List Nat) (sofar : Nat), ∀ e ∈ chunkEvents msgHead total chunks sofar,
      e.stage = Stage.downloading ∧ e.totalBytes = some total
        ∧ ∃ d, e.downloadedBytes = some d ∧ e.progress = chunkPercent total d := by
  intro chunks
  induction chunks with
  | nil => intro sofar e he; cases he
  | cons c rest ih =>
    intro sofar e he
    rcases List.mem_cons.mp he with rfl | he
    · exact ⟨rfl, rfl, sofar + c, rfl, rfl⟩
    · exact ih _ e he

theorem chain_chunkEvents (msgHead : String) (total : Nat) :
    ∀ (chunks : List Nat) (sofar : Nat),
      List.Chain' (fun a b => a ≤ b)
        ((chunkEvents msgHead total chunks sofar).map (fun e => e.progress)) := by
  intro chunks
  induction chunks with
  | nil => intro sofar; simp [chunkEvents]
  | cons c rest ih =>
    intro sofar
    rw [chunkEvents, List.map_cons, List.chain'_cons']
    refine ⟨?_, ih _⟩
    intro b hb
    cases rest with
    | nil => simp [chunkEvents] at hb
    | cons c' r' =>
      simp only [chunkEvents, List.map_cons, List.head?_cons, Option.mem_def,
        Option.some.injEq] at hb
      subst hb
      exact chunkPercent_mono total (sofar + c) (sofar + c + c') (Nat.le_add_right _ _)

theorem chain_assembled (msgHead : String) (total : Nat) (chunks : List Nat)
    (e0 e1 : DownloadProgress) (tail : List DownloadProgress)
    (h0 : e0.progress = 0) (h1 : e1.progress = 0)
    (ht : List.Chain' (fun a b => a ≤ b) (tail.map (fun e => e.progress)))
    (hth : ∀ y ∈ (tail.map (fun e => e.progress)).head?, (50:ℚ) ≤ y) :
    List.Chain' (fun a b => a ≤ b)
      (([e0, e1] ++ chunkEvents msgHead total chunks 0 ++ tail).map
        (fun e => e.progress)) := by
  have hmap : ([e0, e1] ++ chunkEvents msgHead total chunks 0 ++ tail).map
        (fun e => e.progress)
      = (0:ℚ) :: 0 :: ((chunkEvents msgHead total chunks 0).map (fun e => e.progress)
          ++ tail.map (fun e => e.progress)) := by
    simp [h0, h1]
  rw [hmap, List.chain'_cons]
  refine ⟨le_refl 0, ?_⟩
  rw [List.chain'_cons']
  constructor
  · intro b hb
    cases chunks with
    | nil =>
      simp only [chunkEvents, List.map_nil, List.nil_append] at hb
      exact le_trans (by norm_num) (hth b hb)
    | cons c rest =>
      simp only [chunkEvents, List.map_cons, List.cons_append, List.head?_cons,
        Option.mem_def, Option.some.injEq] at hb
      subst hb
      exact chunkPercent_nonneg _ _
  · rw [List.chain'_append]
    refine ⟨chain_chunkEvents _ _ _ _, ht, ?_⟩
    intro x hx y hy
    have hxm : x ∈ (chunkEvents msgHead total chunks 0).map (fun e => e.progress) :=
      List.mem_of_mem_getLast? hx
    obtain ⟨e, hem, rfl⟩ := List.mem_map.mp hxm
    obtain ⟨-, -, d, -, hp⟩ := chunkEvents_mem msgHead total chunks 0 e hem
    rw [hp]
    exact le_trans (chunkPercent_le_50 total d) (hth y hy)

theorem countP_error_chunkEvents (msgHead : String) (total : Nat) :
    ∀ (chunks : List Nat) (sofar : Nat),
      (chunkEvents msgHead total chunks sofar).countP
        (fun e => decide (e.stage = Stage.error)) = 0 := by
  intro chunks
  induction chunks with
  | nil => intro sofar; rfl
  | cons c rest ih =>
    intro sofar
    rw [chunkEvents, List.countP_cons]
    simp [ih]

theorem isFileUrl_local (p : String) : isFileUrl ("file://" ++ p) = true := by
  show List.isPrefixOf ['f','i','l','e',':','/','/'] ("file://".data ++ p.data) = true
  simp [List.isPrefixOf]

theorem isFileUrl_github :
    isFileUrl
      "https://github.com/yourusername/toji/releases/download/v1.0.0/toji-bot-linux.tar.gz"
      = false := rfl

theorem extract_downloadPath (tarResult : Except String Unit) (dest : String) :
    extractArchive tarResult downloadPath dest = (tarResult, true) := rfl

theorem downloadFile_shape (url : String) (total : Nat) (env : BotEnv) :
    ∃ msgHead,
      downloadFile url total env = (chunkEvents msgHead total env.chunks 0, env.stream) := by
  unfold downloadFile
  by_cases h : isFileUrl url = true
  · rw [if_pos h]
    exact ⟨_, rfl⟩
  · rw [if_neg h]
    exact ⟨_, rfl⟩

/-- Normal forms of a `downloadBot()` run: the five places the body can fail
(directory creation, transfer, extraction, verification, chmod) each append
one `error` event to the events emitted so far, and the success run ends in
the `complete` event. -/
theorem downloadBot_shape (env : BotEnv) :
    ∃ msgHead,
      (∃ m, downloadBot env = ([checkingEvent] ++ [errorEvent m], false))
        ∨ (∃ m, downloadBot env
            = ([checkingEvent, downloadingInitEvent (getLatestRelease env)]
                ++ chunkEvents msgHead (getLatestRelease env).size env.chunks 0
                ++ [] ++ [errorEvent m], false))
        ∨ (∃ m, downloadBot env
            = ([checkingEvent, downloadingInitEvent (getLatestRelease env)]
                ++ chunkEvents msgHead (getLatestRelease env).size env.chunks 0
                ++ [extractingEvent] ++ [errorEvent m], false))
        ∨ (∃ m, downloadBot env
            = ([checkingEvent, downloadingInitEvent (getLatestRelease env)]
                ++ chunkEvents msgHead (getLatestRelease env).size env.chunks 0
                ++ [extractingEvent, verifyingEvent] ++ [errorEvent m], false))
        ∨ downloadBot env
            = ([checkingEvent, downloadingInitEvent (getLatestRelease env)]
                ++ chunkEvents msgHead (getLatestRelease env).size env.chunks 0
                ++ [extractingEvent, verifyingEvent, completeEvent], true) := by
  obtain ⟨msg, hdl⟩ := downloadFile_shape (getLatestRelease env).downloadUrl
      (getLatestRelease env).size env
  refine ⟨msg, ?_⟩
  cases hmk : env.mkdir with
  | error m =>
    exact Or.inl ⟨m, by simp [downloadBot, downloadBotBody, hmk]⟩
  | ok u =>
    cases hst : env.stream with
    | error m =>
      refine Or.inr (Or.inl ⟨m, ?_⟩)
      simp [downloadBot, downloadBotBody, hmk, hdl, hst]
    | ok v =>
      cases htar : env.tar with
      | error m =>
        refine Or.inr (Or.inr (Or.inl ⟨m, ?_⟩))
        simp [downloadBot, downloadBotBody, hmk, hdl, hst, extract_downloadPath, htar]
      | ok w =>
        cases hinst : env.botInstalled with
        | false =>
          refine Or.inr (Or.inr (Or.inr
            (Or.inl ⟨"Bot verification failed - executable not found", ?_⟩)))
          simp [downloadBot, downloadBotBody, hmk, hdl, hst, extract_downloadPath,
            htar, hinst]
        | true =>
          cases hch : env.chmod with
          | error m =>
            refine Or.inr (Or.inr (Or.inr (Or.inl ⟨m, ?_⟩)))
            simp [downloadBot, downloadBotBody, hmk, hdl, hst, extract_downloadPath,
              htar, hinst, hch]
          | ok x =>
            refine Or.inr (Or.inr (Or.inr (Or.inr ?_)))
            simp [downloadBot, downloadBotBody, hmk, hdl, hst, extract_downloadPath,
              htar, hinst, hch]

theorem chunkPercent_zero (t : Nat) : chunkPercent t 0 = 0 := by
  unfold chunkPercent jsRound
  have h0 : ((0 : Nat) : ℚ) / (t : ℚ) * 100 = 0 := by norm_num
  rw [h0]
  have h1 : ⌊(0 : ℚ) + 1 / 2⌋ = 0 := by
    rw [Int.floor_eq_zero_iff]
    constructor <;> norm_num
  rw [h1]
  norm_num

/-- Every event a run emits is one of the seven event forms of the
pipeline. -/
theorem downloadBot_event_cases (env : BotEnv) :
    ∀ e ∈ (downloadBot env).1,
      e = checkingEvent
        ∨ e = downloadingInitEvent (getLatestRelease env)
        ∨ (e.stage = Stage.downloading ∧ e.totalBytes = some (getLatestRelease env).size
            ∧ ∃ d, e.downloadedBytes = some d
                ∧ e.progress = chunkPercent (getLatestRelease env).size d)
        ∨ e = extractingEvent ∨ e = verifyingEvent ∨ e = completeEvent
        ∨ ∃ m, e = errorEvent m := by
  obtain ⟨msg, hsh⟩ := downloadBot_shape env
  intro e he
  rcases hsh with ⟨m, heq⟩ | ⟨m, heq⟩ | ⟨m, heq⟩ | ⟨m, heq⟩ | heq
  · simp only [heq, List.mem_append, List.mem_cons, List.not_mem_nil, or_false] at he
    rcases he with rfl | rfl
    · exact Or.inl rfl
    · exact Or.inr (Or.inr (Or.inr (Or.inr (Or.inr (Or.inr ⟨m, rfl⟩)))))
  · simp only [heq, List.mem_append, List.mem_cons, List.not_mem_nil, or_false] at he
    rcases he with ((rfl | rfl) | hc) | rfl
    · exact Or.inl rfl
    · exact Or.inr (Or.inl rfl)
    · exact Or.inr (Or.inr (Or.inl (chunkEvents_mem _ _ _ _ e hc)))
    · exact Or.inr (Or.inr (Or.inr (Or.inr (Or.inr (Or.inr ⟨m, rfl⟩)))))
  · simp only [heq, List.mem_append, List.mem_cons, List.not_mem_nil, or_false] at he
    rcases he with (((rfl | rfl) | hc) | rfl) | rfl
    · exact Or.inl rfl
    · exact Or.inr (Or.inl rfl)
    · exact Or.inr (Or.inr (Or.inl (chunkEvents_mem _ _ _ _ e hc)))
    · exact Or.inr (Or.inr (Or.inr (Or.inl rfl)))
    · exact Or.inr (Or.inr (Or.inr (Or.inr (Or.inr (Or.inr ⟨m, rfl⟩)))))
  · simp only [heq, List.mem_append, List.mem_cons, List.not_mem_nil, or_false] at he
    rcases he with (((rfl | rfl) | hc) | rfl | rfl) | rfl
    · exact Or.inl rfl
    · exact Or.inr (Or.inl rfl)
    · exact Or.inr (Or.inr (Or.inl (chunkEvents_mem _ _ _ _ e hc)))
    · exact Or.inr (Or.inr (Or.inr (Or.inl rfl)))
    · exact Or.inr (Or.inr (Or.inr (Or.inr (Or.inl rfl))))
    · exact Or.inr (Or.inr (Or.inr (Or.inr (Or.inr (Or.inr ⟨m, rfl⟩)))))
  · simp only [heq, List.mem_append, List.mem_cons, List.not_mem_nil, or_false] at he
    rcases he with ((rfl | rfl) | hc) | rfl | rfl | rfl
    · exact Or.inl rfl
    · exact Or.inr (Or.inl rfl)
    · exact Or.inr (Or.inr (Or.inl (chunkEvents_mem _ _ _ _ e hc)))
    · exact Or.inr (Or.inr (Or.inr (Or.inl rfl)))
    · exact Or.inr (Or.inr (Or.inr (Or.inr (Or.inl rfl))))
    · exact Or.inr (Or.inr (Or.inr (Or.inr (Or.inr (Or.inl rfl)))))

/-- Claim C7: every progress event of the `downloading` stage — on both the
remote-HTTP and the local-file path — carries a percent of at most 50,
namely `min(round(downloadedBytes/totalBytes*100)*0.5, 50)`; the range above
50 is left for the later stages. -/
theorem downloading_stage_capped (env : BotEnv) :
    ∀ e ∈ (downloadBot env).1, e.stage = Stage.downloading →
      e.progress ≤ 50
        ∧ ∃ t d, e.totalBytes = some t ∧ e.downloadedBytes = some d
            ∧ e.progress = chunkPercent t d := by
  intro e he hs
  rcases downloadBot_event_cases env e he
    with rfl | rfl | ⟨_, ht, d, hd, hp⟩ | rfl | rfl | rfl | ⟨m, rfl⟩
  · exact absurd hs (by decide)
  · refine ⟨by norm_num [downloadingInitEvent], (getLatestRelease env).size, 0, rfl, rfl, ?_⟩
    show (0 : ℚ) = chunkPercent (getLatestRelease env).size 0
    rw [chunkPercent_zero]
  · rw [hp]
    exact ⟨chunkPercent_le_50 _ _, (getLatestRelease env).size, d, ht, hd, rfl⟩
  · exact absurd hs (by decide)
  · exact absurd hs (by decide)
  · exact absurd hs (by decide)
  · exact absurd hs (by simp [errorEvent])

/-- A successful run with no pre-staged bundle, no data chunks, and all
effects succeeding. -/
def envAllOk : BotEnv :=
  ⟨none, Except.ok (), [], Except.ok (), Except.ok (), true, Except.ok ()⟩

/-- Witness for C7 at the initial `downloading` event of a successful run. -/
theorem downloading_stage_capped_witness :
    (downloadingInitEvent (getLatestRelease envAllOk) ∈ (downloadBot envAllOk).1
        ∧ (downloadingInitEvent (getLatestRelease envAllOk)).stage = Stage.downloading)
      ∧ ((downloadingInitEvent (getLatestRelease envAllOk)).progress ≤ 50
          ∧ ∃ t d, (downloadingInitEvent (getLatestRelease envAllOk)).totalBytes = some t
              ∧ (downloadingInitEvent (getLatestRelease envAllOk)).downloadedBytes = some d
              ∧ (downloadingInitEvent (getLatestRelease envAllOk)).progress = chunkPercent t d) :=
  ⟨⟨by simp [downloadBot, downloadBotBody, downloadFile, envAllOk, getLatestRelease,
      isFileUrl_github, chunkEvents, extract_downloadPath], rfl⟩,
    downloading_stage_capped envAllOk _
      (by simp [downloadBot, downloadBotBody, downloadFile, envAllOk, getLatestRelease,
        isFileUrl_github, chunkEvents, extract_downloadPath]) rfl⟩

theorem tail1_progress :
    ([extractingEvent].map (fun e => e.progress)) = [50] := rfl

theorem tail2_progress :
    ([extractingEvent, verifyingEvent].map (fun e => e.progress)) = [50, 90] := rfl

theorem tail3_progress :
    ([extractingEvent, verifyingEvent, completeEvent].map (fun e => e.progress))
      = [50, 90, 100] := rfl

/-- Claim C6 (amended): a percent of 100 appears only in the `complete`
event, and the emitted percents are non-decreasing on successful runs; on a
failing run every event *before* the terminal `error` event is
non-decreasing, but the `error` event itself carries percent 0, so a failing
run that already reported a positive percent is *not* non-decreasing overall
(see the counterexample). -/
theorem download_percent_monotonicity (env : BotEnv) :
    (∀ e ∈ (downloadBot env).1, e.progress = 100 → e.stage = Stage.complete)
      ∧ ((downloadBot env).2 = true →
          List.Chain' (fun a b => a ≤ b)
            ((downloadBot env).1.map (fun e => e.progress)))
      ∧ ((downloadBot env).2 = false →
          List.Chain' (fun a b => a ≤ b)
            ((downloadBot env).1.dropLast.map (fun e => e.progress))
            ∧ ∃ m, (downloadBot env).1.getLast? = some (errorEvent m)
                ∧ (errorEvent m).progress = 0) := by
  obtain ⟨msg, hsh⟩ := downloadBot_shape env
  refine ⟨?_, ?_, ?_⟩
  · intro e he h100
    rcases downloadBot_event_cases env e he
      with rfl | rfl | ⟨hs, ht, d, hd, hp⟩ | rfl | rfl | rfl | ⟨m, rfl⟩
    · exact absurd h100 (by norm_num [checkingEvent])
    · exact absurd h100 (by norm_num [downloadingInitEvent])
    · have hle := chunkPercent_le_50 (getLatestRelease env).size d
      rw [hp] at h100
      rw [h100] at hle
      norm_num at hle
    · exact absurd h100 (by norm_num [extractingEvent])
    · exact absurd h100 (by norm_num [verifyingEvent])
    · rfl
    · exact absurd h100 (by norm_num [errorEvent])
  · intro hb
    rcases hsh with ⟨m, heq⟩ | ⟨m, heq⟩ | ⟨m, heq⟩ | ⟨m, heq⟩ | heq
    · simp only [heq] at hb
      exact Bool.noConfusion hb
    · simp only [heq] at hb
      exact Bool.noConfusion hb
    · simp only [heq] at hb
      exact Bool.noConfusion hb
    · simp only [heq] at hb
      exact Bool.noConfusion hb
    · simp only [heq]
      exact chain_assembled msg (getLatestRelease env).size env.chunks
        checkingEvent (downloadingInitEvent (getLatestRelease env))
        [extractingEvent, verifyingEvent, completeEvent] rfl rfl
        (by rw [tail3_progress]
            norm_num [List.chain'_cons, List.chain'_singleton])
        (by rw [tail3_progress]
            intro y hy
            simp at hy
            subst hy
            norm_num)
  · intro hb
    rcases hsh with ⟨m, heq⟩ | ⟨m, heq⟩ | ⟨m, heq⟩ | ⟨m, heq⟩ | heq
    · refine ⟨?_, m, ?_, rfl⟩
      · simp only [heq, List.dropLast_concat]
        simp [checkingEvent]
      · simp only [heq]
        exact List.getLast?_concat _
    · refine ⟨?_, m, ?_, rfl⟩
      · simp only [heq, List.dropLast_concat]
        exact chain_assembled msg (getLatestRelease env).size env.chunks
          checkingEvent (downloadingInitEvent (getLatestRelease env)) [] rfl rfl
          (by simp) (by simp)
      · simp only [heq]
        exact List.getLast?_concat _
    · refine ⟨?_, m, ?_, rfl⟩
      · simp only [heq, List.dropLast_concat]
        exact chain_assembled msg (getLatestRelease env).size env.chunks
          checkingEvent (downloadingInitEvent (getLatestRelease env))
          [extractingEvent] rfl rfl
          (by rw [tail1_progress]; simp)
          (by rw [tail1_progress]
              intro y hy
              simp at hy
              subst hy
              norm_num)
      · simp only [heq]
        exact List.getLast?_concat _
    · refine ⟨?_, m, ?_, rfl⟩
      · simp only [heq, List.dropLast_concat]
        exact chain_assembled msg (getLatestRelease env).size env.chunks
          checkingEvent (downloadingInitEvent (getLatestRelease env))
          [extractingEvent, verifyingEvent] rfl rfl
          (by rw [tail2_progress]
              norm_num [List.chain'_cons, List.chain'_singleton])
          (by rw [tail2_progress]
              intro y hy
              simp at hy
              subst hy
              norm_num)
      · simp only [heq]
        exact List.getLast?_concat _
    · simp only [heq] at hb
      exact Bool.noConfusion hb

/-- A run whose `tar.extract` rejects, after a pre-staged 100-byte bundle
was copied. -/
def envTarFail : BotEnv :=
  ⟨some ("/opt/bundle.tar.gz", 100), Except.ok (), [], Except.ok (),
   Except.error "gzip: invalid header", true, Except.ok ()⟩

/-- Counterexample to C6 as stated: in the concrete failing run
`envTarFail`, the `extracting` event reports percent 50 and the terminal
`error` event then reports percent 0, so the emitted percent sequence of
this run — which ends in the `error` stage — is not non-decreasing. -/
theorem download_percent_monotonicity_counterexample :
    (downloadBot envTarFail).2 = false
      ∧ ((downloadBot envTarFail).1.map (fun e => e.stage)).getLast? = some Stage.error
      ∧ ¬ List.Chain' (fun a b => a ≤ b)
          ((downloadBot envTarFail).1.map (fun e => e.progress)) := by
  have heq : downloadBot envTarFail
      = ([checkingEvent, downloadingInitEvent (getLatestRelease envTarFail),
          extractingEvent, errorEvent "gzip: invalid header"], false) := by
    simp [downloadBot, downloadBotBody, downloadFile, envTarFail, getLatestRelease,
      isFileUrl_local, chunkEvents, extract_downloadPath]
  refine ⟨by simp [heq], ?_, ?_⟩
  · simp [heq, checkingEvent, downloadingInitEvent, extractingEvent, errorEvent]
  · rw [heq]
    simp only [List.map_cons, List.map_nil]
    norm_num [checkingEvent, downloadingInitEvent, extractingEvent, errorEvent,
      List.chain'_cons, List.chain'_singleton]

/-- Witness for the amended C6 at the successful run `envAllOk`. -/
theorem download_percent_monotonicity_witness :
    (completeEvent ∈ (downloadBot envAllOk).1 ∧ completeEvent.progress = 100
        ∧ completeEvent.stage = Stage.complete)
      ∧ ((downloadBot envAllOk).2 = true
          ∧ List.Chain' (fun a b => a ≤ b)
              ((downloadBot envAllOk).1.map (fun e => e.progress))) :=
  ⟨⟨by simp [downloadBot, downloadBotBody, downloadFile, envAllOk, getLatestRelease,
        isFileUrl_github, chunkEvents, extract_downloadPath], rfl,
      (download_percent_monotonicity envAllOk).1 completeEvent
        (by simp [downloadBot, downloadBotBody, downloadFile, envAllOk, getLatestRelease,
          isFileUrl_github, chunkEvents, extract_downloadPath]) rfl⟩,
    ⟨rfl, (download_percent_monotonicity envAllOk).2.1 rfl⟩⟩

theorem countP_error_pre (release : BotRelease) :
    ([checkingEvent, downloadingInitEvent release].countP
      (fun e => decide (e.stage = Stage.error))) = 0 := rfl

theorem countP_error_tail1 :
    ([extractingEvent].countP (fun e => decide (e.stage = Stage.error))) = 0 := rfl

theorem countP_error_tail2 :
    ([extractingEvent, verifyingEvent].countP
      (fun e => decide (e.stage = Stage.error))) = 0 := rfl

theorem countP_error_tail3 :
    ([extractingEvent, verifyingEvent, completeEvent].countP
      (fun e => decide (e.stage = Stage.error))) = 0 := rfl

theorem countP_error_single (m : String) :
    ([errorEvent m].countP (fun e => decide (e.stage = Stage.error))) = 1 := rfl

theorem countP_error_nil :
    (([] : List DownloadProgress).countP (fun e => decide (e.stage = Stage.error))) = 0 := rfl

/-- Claim C10: `downloadBot()` never rejects: every run either resolves
`true` with the `complete` event (percent 100) as its last emitted event and
no `error`-stage event at all, or resolves `false` having emitted exactly
one `error`-stage event — the terminal one, carrying the caught error
message in its `error` field. -/
theorem downloadBot_never_rejects (env : BotEnv) :
    ((downloadBot env).2 = true
        ∧ (downloadBot env).1.getLast? = some completeEvent
        ∧ completeEvent.progress = 100 ∧ completeEvent.stage = Stage.complete
        ∧ (downloadBot env).1.countP (fun e => decide (e.stage = Stage.error)) = 0)
      ∨ (∃ m, (downloadBot env).2 = false
          ∧ (downloadBot env).1.getLast? = some (errorEvent m)
          ∧ (errorEvent m).stage = Stage.error ∧ (errorEvent m).error = some m
          ∧ (downloadBot env).1.countP (fun e => decide (e.stage = Stage.error)) = 1) := by
  obtain ⟨msg, hsh⟩ := downloadBot_shape env
  rcases hsh with ⟨m, heq⟩ | ⟨m, heq⟩ | ⟨m, heq⟩ | ⟨m, heq⟩ | heq
  · refine Or.inr ⟨m, by simp [heq], ?_, rfl, rfl, ?_⟩
    · simp only [heq]
      exact List.getLast?_concat _
    · simp only [heq]
      rw [List.countP_append]
      rfl
  · refine Or.inr ⟨m, by simp [heq], ?_, rfl, rfl, ?_⟩
    · simp only [heq]
      exact List.getLast?_concat _
    · simp only [heq]
      rw [List.countP_append, List.countP_append, List.countP_append,
        countP_error_chunkEvents, countP_error_pre, countP_error_nil,
        countP_error_single]
  · refine Or.inr ⟨m, by simp [heq], ?_, rfl, rfl, ?_⟩
    · simp only [heq]
      exact List.getLast?_concat _
    · simp only [heq]
      rw [List.countP_append, List.countP_append, List.countP_append,
        countP_error_chunkEvents, countP_error_pre, countP_error_tail1,
        countP_error_single]
  · refine Or.inr ⟨m, by simp [heq], ?_, rfl, rfl, ?_⟩
    · simp only [heq]
      exact List.getLast?_concat _
    · simp only [heq]
      rw [List.countP_append, List.countP_append, List.countP_append,
        countP_error_chunkEvents, countP_error_pre, countP_error_tail2,
        countP_error_single]
  · refine Or.inl ⟨by simp [heq], ?_, rfl, rfl, ?_⟩
    · simp only [heq]
      rw [show [extractingEvent, verifyingEvent, completeEvent]
            = [extractingEvent, verifyingEvent] ++ [completeEvent] from rfl,
        ← List.append_assoc, List.getLast?_concat]
    · simp only [heq]
      rw [List.countP_append, List.countP_append,
        countP_error_chunkEvents, countP_error_pre, countP_error_tail3]

-- The `extname` model agrees with Node's posix `path.extname` on the name
-- shapes that occur here: a gzip tarball keeps only its final `.gz` suffix,
-- a hidden file and a dotless name have no extension, a trailing dot is the
-- extension `"."`.

theorem extname_targz : extname "/tmp/toji-bot-download.tar.gz" = ".gz" := rfl

theorem extname_tar : extname "/tmp/bundle.tar" = ".tar" := rfl

theorem extname_zip : extname "/tmp/bot.zip" = ".zip" := rfl

theorem extname_hidden : extname "/home/user/.bashrc" = "" := rfl

theorem extname_dotless : extname "/usr/bin/archive" = "" := rfl

theorem extname_trailing_dot : extname "/tmp/file." = "." := rfl

/-- Counterexample to C8 as stated: `.tar` is not the extension of a
gzip-compressed tar archive (that extension is `.gz`), yet `extractArchive`
accepts the `.tar` path and invokes `tar.extract` on it (second component
`true`) instead of raising the claimed unsupported-format error — so no
error of any message is raised and the no-write guarantee does not hold at
this input. -/
theorem extract_unsupported_counterexample :
    extname "/tmp/bundle.tar" = ".tar"
      ∧ (".tar" : String) ≠ ".gz"
      ∧ extractArchive (Except.ok ()) "/tmp/bundle.tar" "/home/user/.toji/bot"
          = (Except.ok (), true)
      ∧ ¬ ∃ m, (extractArchive (Except.ok ()) "/tmp/bundle.tar"
            "/home/user/.toji/bot").1 = Except.error m := by
  refine ⟨rfl, by decide, rfl, ?_⟩
  rintro ⟨m, hm⟩
  rw [show (extractArchive (Except.ok ()) "/tmp/bundle.tar"
      "/home/user/.toji/bot").1 = Except.ok () from rfl] at hm
  cases hm

/-- Claim C8 (amended): for every archive path whose extension is neither
`.gz` nor `.tar` — in particular a `.zip` path — `extractArchive` raises an
explicit error without ever invoking `tar.extract`, so nothing is written to
the destination directory; a `.zip` path gets the dedicated
ZIP-not-implemented message, any other extension the generic
unsupported-format message naming the extension. -/
theorem extract_unsupported_amended (tarResult : Except String Unit)
    (archivePath destination : String)
    (hgz : extname archivePath ≠ ".gz") (htar : extname archivePath ≠ ".tar") :
    (extractArchive tarResult archivePath destination).2 = false
      ∧ ((extname archivePath = ".zip"
            ∧ (extractArchive tarResult archivePath destination).1
              = Except.error "ZIP extraction not yet implemented")
          ∨ (extname archivePath ≠ ".zip"
            ∧ (extractArchive tarResult archivePath destination).1
              = Except.error ("Unsupported archive format: " ++ extname archivePath))) := by
  have hor : ¬(extname archivePath = ".gz" ∨ extname archivePath = ".tar") := by
    rintro (h | h)
    · exact hgz h
    · exact htar h
  simp only [extractArchive]
  rw [if_neg hor]
  by_cases hz : extname archivePath = ".zip"
  · rw [if_pos hz]
    exact ⟨rfl, Or.inl ⟨hz, rfl⟩⟩
  · rw [if_neg hz]
    exact ⟨rfl, Or.inr ⟨hz, rfl⟩⟩

/-- Witness for the amended C8 at a `.zip` path. -/
theorem extract_unsupported_amended_witness :
    (extname "/tmp/bot.zip" ≠ ".gz" ∧ extname "/tmp/bot.zip" ≠ ".tar")
      ∧ ((extractArchive (Except.ok ()) "/tmp/bot.zip" "/home/user/.toji/bot").2 = false
          ∧ ((extname "/tmp/bot.zip" = ".zip"
                ∧ (extractArchive (Except.ok ()) "/tmp/bot.zip" "/home/user/.toji/bot").1
                  = Except.error "ZIP extraction not yet implemented")
              ∨ (extname "/tmp/bot.zip" ≠ ".zip"
                ∧ (extractArchive (Except.ok ()) "/tmp/bot.zip" "/home/user/.toji/bot").1
                  = Except.error ("Unsupported archive format: " ++ extname "/tmp/bot.zip")))) :=
  ⟨⟨by decide, by decide⟩,
    extract_unsupported_amended (Except.ok ()) "/tmp/bot.zip" "/home/user/.toji/bot"
      (by decide) (by decide)⟩

end Toji
